import Mathlib

/-!
Verification of the sublime-telescope plugin (src/telescope.py).

This file gives a shallow embedding of the search engine of the plugin:
the query planner of `TelescopeQueryCommand._run`, the debounce scheduling
of `TelescopeQueryCommand.run` together with its callback
`TelescopeQueryCommand._run`, the result parser of
`TelescopeSetResultCommand.run`, and the highlight-index arithmetic of
`_next_result`.  Strings manipulated character by character in the source
are modelled as `List Char`; Python integers are modelled as `Int`
(non-negative counters as `Nat`); fallible code is modelled with `Except`.
-/

namespace Telescope

/-- Python constant `MIN_UPDATE_PERIOD = 200` (telescope.py line 13). -/
def MIN_UPDATE_PERIOD : Nat := 200

/-- The `SearchResult` dataclass (telescope.py lines 26-33).  `region_out`
models the field `region_io` (the region in the IO panel); `line_position`
is the position of the match in the line. -/
structure SearchResult where
  path : String
  line_number : Int
  line_position : Int × Int
  region_out : Int × Int
deriving DecidableEq, Repr

/-! ## Result parser: `TelescopeSetResultCommand.run` (lines 171-230) -/

/-- `content = data.get("lines", {}).get("text").replace("\n", " ")`
(line 204): every newline of the matched line text becomes a space. -/
def replaceNl (text : List Char) : List Char :=
  text.map (fun c => if c = '\n' then ' ' else c)

/-- `to_trim = next((i for i, s in enumerate(content) if s.strip()), 0)`
(line 208): index of the first character that is not whitespace, `0` when
every character is whitespace. -/
def firstNonWs (content : List Char) : Nat :=
  match content.findIdx? (fun c => !c.isWhitespace) with
  | some i => i
  | none => 0

/-- `content[to_trim:][:500]` (line 220): the slice of the matched line
that is appended to the display buffer. -/
def displayedClip (content : List Char) (to_trim : Nat) : List Char :=
  (content.drop to_trim).take 500

/-- A decoded `rg --json` record, after `json.loads` succeeded (lines
195-220).  `beginRec` is a record of type `"begin"` carrying
`data.path.text`; `matchRec` is a record of type `"match"` carrying
`data.path.text`, `data.line_number`, `data.lines.text` and the list of
`start`/`end` pairs of `data.submatches`; `otherRec` is any other record
type (`"end"`, `"summary"`, ...), which the loop body ignores. -/
inductive RgRecord
  | beginRec (path : String)
  | matchRec (path : String) (line_number : Int) (text : List Char)
      (submatches : List (Int × Int))
  | otherRec
deriving DecidableEq, Repr

/-- One raw line of the streamed process output in structured mode:
`blank` is a line whose `line.strip()` is empty (skipped at line 185-186
before any decoding); `bad` is a non-blank line on which `json.loads`
raises (line 195); `good` is a non-blank line that decodes to a record. -/
inductive JsonLine
  | blank (raw : String)
  | bad (raw : String)
  | good (r : RgRecord)
deriving DecidableEq, Repr

/-- The loop state of `TelescopeSetResultCommand.run`: the pending text
`to_show`, the length `ii_view` of the text already inserted in the view,
the accumulated `search_results`, and `committed`, the text already
inserted in the view. -/
structure SetResultState where
  to_show : List Char
  ii_view : Nat
  results : List SearchResult
  committed : List Char
deriving DecidableEq, Repr

/-- Initial loop state: the view was just erased (line 175). -/
def setResultInit : SetResultState := ⟨[], 0, [], []⟩

/-- The flush of lines 222-225: `self.view.insert(...); ii_view +=
len(to_show); to_show = ""`. -/
def flush (st : SetResultState) : SetResultState :=
  ⟨[], st.ii_view + st.to_show.length, st.results, st.committed ++ st.to_show⟩

/-- The body of the structured branch (lines 195-220) for one decoded
record. -/
def stepRecord (st : SetResultState) : RgRecord → SetResultState
  | .beginRec path =>
    { st with to_show :=
        (if st.to_show ≠ [] then st.to_show ++ ['\n', '\n'] else st.to_show)
          ++ path.toList ++ [':'] }
  | .matchRec path line_number text submatches =>
    let content := replaceNl text
    let new_show := st.to_show ++ '\n' :: ' ' :: (toString line_number).toList
      ++ [':', ' ']
    let to_trim := firstNonWs content
    let offset : Int := (st.ii_view : Int) + (new_show.length : Int)
      - (to_trim : Int)
    { st with
        to_show := new_show ++ displayedClip content to_trim,
        results := st.results ++ submatches.map (fun m =>
          ⟨path, line_number, (m.1, m.2), (m.1 + offset, m.2 + offset)⟩) }
  | .otherRec => st

/-- One iteration of the loop of lines 184-225 in structured mode, at
enumerate index `i`.  A blank line is skipped (`continue`, line 185-186);
a line on which `json.loads` raises aborts the command (the exception
propagates, nothing catches it); otherwise the record is processed and,
when `i % 100 == 0`, the pending text is flushed into the view. -/
def stepJson (i : Nat) (st : SetResultState) : JsonLine →
    Except Unit SetResultState
  | .blank _ => .ok st
  | .bad _ => .error ()
  | .good r =>
    let st' := stepRecord st r
    .ok (if i % 100 = 0 then flush st' else st')

/-- The loop of lines 184-228 in structured mode, from index `i` and
state `st`.  At the end the remaining `to_show` is inserted (lines
227-228); the returned pair is the final `search_results` list together
with the full displayed buffer. -/
def runJsonAux : Nat → SetResultState → List JsonLine →
    Except Unit (List SearchResult × List Char)
  | _, st, [] => .ok (st.results, st.committed ++ st.to_show)
  | i, st, l :: rest =>
    match stepJson i st l with
    | .error e => .error e
    | .ok st' => runJsonAux (i + 1) st' rest

/-- `TelescopeSetResultCommand.run` in structured mode
(`only_files=False`), on the already classified raw lines. -/
def telescope_set_result_json (lines : List JsonLine) :
    Except Unit (List SearchResult × List Char) :=
  runJsonAux 0 setResultInit lines

/-- One iteration of the loop of lines 184-225 in files-only mode
(lines 188-193): `path = line[:-1]`, the path plus a newline is appended
to the display buffer, and a whole-file `SearchResult` with line number
`0` and empty spans is recorded at the end-of-path offset. -/
def stepFiles (i : Nat) (st : SetResultState) (line : List Char) :
    SetResultState :=
  if line.all (·.isWhitespace) then st
  else
    let path := line.dropLast
    let new_show := st.to_show ++ path ++ ['\n']
    let offset : Int := (st.ii_view : Int) + (new_show.length : Int) - 1
    let st' := { st with
        to_show := new_show,
        results := st.results ++
          [⟨String.mk path, 0, (0, 0), (offset, offset)⟩] }
    if i % 100 = 0 then flush st' else st'

/-- The loop of lines 184-228 in files-only mode, from index `i`. -/
def runFilesAux : Nat → SetResultState → List (List Char) →
    List SearchResult × List Char
  | _, st, [] => (st.results, st.committed ++ st.to_show)
  | i, st, l :: rest => runFilesAux (i + 1) (stepFiles i st l) rest

/-- `TelescopeSetResultCommand.run` in files-only mode
(`only_files=True`). -/
def telescope_set_result_files (lines : List (List Char)) :
    List SearchResult × List Char :=
  runFilesAux 0 setResultInit lines

/-! ## Query planner: `TelescopeQueryCommand._run` (lines 103-157) -/

/-- `search_query.split(" ")` (line 113): Python `str.split` with an
explicit separator splits at every single space and keeps empty pieces,
and `"".split(" ") == [""]`. -/
def splitSpaces : List Char → List (List Char)
  | [] => [[]]
  | ' ' :: rest => [] :: splitSpaces rest
  | c :: rest =>
    match splitSpaces rest with
    | [] => [[c]]
    | g :: gs => (c :: g) :: gs

/-- `" ".join(search)` (line 138). -/
def joinSpaces : List (List Char) → List Char
  | [] => []
  | [a] => a
  | a :: rest => a ++ ' ' :: joinSpaces rest

/-- `s.startswith(("*", "-*"))` (line 129). -/
def isGlobTerm : List Char → Bool
  | '*' :: _ => true
  | '-' :: '*' :: _ => true
  | _ => false

/-- `s.replace("-*", "!*")` (line 130): left-to-right replacement of
every non-overlapping occurrence of the two-character pattern. -/
def replaceDashStar : List Char → List Char
  | '-' :: '*' :: rest => '!' :: '*' :: replaceDashStar rest
  | c :: rest => c :: replaceDashStar rest
  | [] => []

/-- Helper for `collapseStars`: `inStar` records whether the previous
character belonged to a run of stars already rewritten. -/
def collapseStarsAux : Bool → List Char → List Char
  | _, [] => []
  | inStar, c :: rest =>
    if c = '*' then
      if inStar then collapseStarsAux true rest
      else '*' :: '*' :: collapseStarsAux true rest
    else c :: collapseStarsAux false rest

/-- `re.sub(r"\*+", "**", s)` (line 131): every maximal run of `*`
characters is rewritten to `**`. -/
def collapseStars (s : List Char) : List Char := collapseStarsAux false s

/-- Truthiness of `s.strip()` (line 135): the term contains at least one
non-whitespace character. -/
def strippedTruthy (s : List Char) : Bool := s.any (fun c => !c.isWhitespace)

/-- The command description assembled by `_run` before formatting the
`rg` invocation (lines 113-157): the `(flag, value)` argument pairs, the
literal search text, the search roots, and the files-only flag. -/
structure Plan where
  args : List (String × List Char)
  search : List Char
  folders : List String
  only_files : Bool
deriving DecidableEq, Repr

/-- `args.extend(("--glob", f"!{e}") for e in exclude_patterns)`
(line 126). -/
def excludeArgs (exclude_patterns : List (List Char)) :
    List (String × List Char) :=
  exclude_patterns.map (fun e => ("--glob", '!' :: e))

/-- One iteration of the term-classification loop (lines 128-136), on
the accumulator `(args, search, folders)`. -/
def processTerm (home : String)
    (st : List (String × List Char) × List (List Char) × List String)
    (s : List Char) :
    List (String × List Char) × List (List Char) × List String :=
  if isGlobTerm s then
    (st.1 ++ [("--glob", collapseStars (replaceDashStar s))], st.2.1, st.2.2)
  else if s = ['~'] then
    (st.1, st.2.1, [home])
  else if strippedTruthy s then
    (st.1, st.2.1 ++ [s], st.2.2)
  else st

/-- The planning part of `TelescopeQueryCommand._run` (lines 103-157).
An empty query never reaches the command construction: line 109 sets an
empty result and returns, so `none` is produced (no process invocation).
Otherwise the query is split on spaces, each term is classified, the
literal search text is the space-join of the non-glob non-`~` non-blank
terms, and when that text is empty the plan switches to files-only mode
by appending `--files-with-matches` (lines 140-143). -/
def planSearch (search_query : List Char)
    (exclude_patterns : List (List Char)) (folders : List String)
    (home : String) : Option Plan :=
  if search_query = [] then none
  else
    let st := (splitSpaces search_query).foldl (processTerm home)
      (excludeArgs exclude_patterns, [], folders)
    let search := joinSpaces st.2.1
    if search = [] then
      some ⟨st.1 ++ [("--files-with-matches", [])], search, st.2.2, true⟩
    else
      some ⟨st.1, search, st.2.2, false⟩

/-! ## Debounce scheduling: `TelescopeQueryCommand.run` / `_run`
(lines 83-111) -/

/-- A key of the module-level `search_queries` dictionary.  The source
stores queries under the output-panel view (`search_queries[self.view]`,
line 97) but tests membership of the view's window
(`self.view.window() not in search_queries`, line 96); views and windows
are distinct host objects, modelled by distinct constructors. -/
inductive Key
  | view (id : Nat)
  | window (id : Nat)
deriving DecidableEq, Repr

/-- `self.view.window()`: the window containing panel view `v`. -/
def window_of (v : Nat) : Nat := v

/-- The global scheduling state: the `search_queries` dictionary, plus
event logs of the `sublime.set_timeout_async` calls (view, delay), of the
external process launches (view, query) of line 167, and of the views
whose panel was reset to the empty result list by line 110. -/
structure SchedState where
  search_queries : Key → Option (List Char)
  scheduled : List (Nat × Nat)
  launched : List (Nat × List Char)
  cleared : List Nat

/-- The state before any edit: empty dictionary, no events. -/
def schedInit : SchedState := ⟨fun _ => none, [], [], []⟩

/-- Dictionary update: `dictSet m k (some q)` is `m[k] = q` and
`dictSet m k none` is the removal performed by `m.pop(k, None)`. -/
def dictSet (m : Key → Option (List Char)) (k : Key)
    (val : Option (List Char)) : Key → Option (List Char) :=
  fun k' => if k' = k then val else m k'

/-- `TelescopeQueryCommand.run` (lines 86-101) on panel view `v` with
query `q`: `was_none = self.view.window() not in search_queries;
search_queries[self.view] = search_query`, then a callback to `_run` is
scheduled with delay `0` when `was_none` and `MIN_UPDATE_PERIOD`
otherwise. -/
def queryRun (v : Nat) (q : List Char) (st : SchedState) : SchedState :=
  let was_none := (st.search_queries (Key.window (window_of v))).isNone
  let delay := if was_none then 0 else MIN_UPDATE_PERIOD
  { st with
      search_queries := dictSet st.search_queries (Key.view v) (some q),
      scheduled := st.scheduled ++ [(v, delay)] }

/-- `TelescopeQueryCommand._run` (lines 103-111 and 165-168) on panel
view `v`: `search_query = search_queries.pop(self.view, None)`; when the
pop yields `None` the callback returns at once; when it yields the empty
string the result panel is set to the empty result list (line 110); and
otherwise the search command for the popped query is executed (line 167,
the command being `planSearch` applied to that query). -/
def queryFire (v : Nat) (st : SchedState) : SchedState :=
  match st.search_queries (Key.view v) with
  | none => st
  | some q =>
    let st' := { st with
      search_queries := dictSet st.search_queries (Key.view v) none }
    if q = [] then { st' with cleared := st'.cleared ++ [v] }
    else { st' with launched := st'.launched ++ [(v, q)] }

/-- A burst of successive query edits on panel view `v`. -/
def applyEdits (v : Nat) (qs : List (List Char)) (st : SchedState) :
    SchedState :=
  qs.foldl (fun s q => queryRun v q s) st

/-! ## Highlight navigation: `_next_result` (lines 266-267) -/

/-- The index update of `_next_result` (line 267):
`result_index = (result_index + direction) % (len(search_results) or 1)`.
Python `%` with a positive modulus agrees with `Int.emod`. -/
def next_result_index (result_index direction : Int) (n : Nat) : Int :=
  (result_index + direction) % (if n = 0 then (1 : Int) else (n : Int))

/-! ## Concrete inputs used by the claim theorems -/

/-- The terms of the query that are neither glob tokens nor `~` nor
whitespace-only: exactly the terms that line 136 appends to the literal
search text. -/
def searchTermKept (s : List Char) : Bool :=
  !(isGlobTerm s) && !(decide (s = ['~'])) && strippedTruthy s

/-- The matched line text of the round-trip record of the specification:
`"  foo(bar)\n"`. -/
def txt6 : List Char := "  foo(bar)\n".toList

/-- A stream with one malformed record between two well-formed match
records. -/
def exC5 : List JsonLine :=
  [.good (.matchRec "a.py" 1 "x\n".toList [(0, 1)]),
   .bad "oops",
   .good (.matchRec "a.py" 2 "y\n".toList [(0, 1)])]

/-- The round-trip record of the specification, preceded by its file
header. -/
def exC6 : List JsonLine :=
  [.good (.beginRec "a.py"), .good (.matchRec "a.py" 12 txt6 [(6, 9)])]

/-- The round-trip record of the specification, preceded by its file
header and by a previous match record in the same file. -/
def exC6b : List JsonLine :=
  [.good (.beginRec "a.py"),
   .good (.matchRec "a.py" 11 "x = 1\n".toList [(0, 1)]),
   .good (.matchRec "a.py" 12 txt6 [(6, 9)])]

/-- A single match record with two submatches on the same line. -/
def exC10 : List JsonLine :=
  [.good (.matchRec "b.py" 3 "ab\n".toList [(0, 1), (1, 2)])]

/-! ## Helper lemmas -/

/-- After a query edit, the dictionary holds that query for the panel
view. -/
theorem queryRun_queries (v : Nat) (q : List Char) (st : SchedState) :
    (queryRun v q st).search_queries (Key.view v) = some q := by
  simp [queryRun, dictSet]

/-- After a burst of edits, the dictionary holds the last edit's
query. -/
theorem applyEdits_queries (v : Nat) :
    ∀ (qs : List (List Char)) (st : SchedState) (h : qs ≠ []),
    (applyEdits v qs st).search_queries (Key.view v) = some (qs.getLast h)
  | [], _, h => absurd rfl h
  | [q], st, _ => queryRun_queries v q st
  | q :: q' :: rest, st, _ =>
    applyEdits_queries v (q' :: rest) (queryRun v q st)
      (List.cons_ne_nil q' rest)

/-- `(a % n + b) % n = (a + b) % n` for `Int.emod`. -/
theorem emod_add_left_emod (a b n : Int) : (a % n + b) % n = (a + b) % n := by
  have h : a % n + b = (a + b) + n * (-(a / n)) := by
    rw [Int.emod_def]; ring
  rw [h, Int.add_mul_emod_self_left]

/-- The structured parse loop fails exactly when some line of the input
is a non-blank line on which `json.loads` raises. -/
theorem runJsonAux_error_iff :
    ∀ (lines : List JsonLine) (i : Nat) (st : SetResultState),
    (runJsonAux i st lines = .error () ↔ ∃ raw, JsonLine.bad raw ∈ lines)
  | [], _, _ => by simp [runJsonAux]
  | .blank raw :: rest, i, st => by
    have ih := runJsonAux_error_iff rest (i + 1) st
    simp only [runJsonAux, stepJson]
    rw [ih]
    simp
  | .bad raw :: rest, i, st => by
    simp only [runJsonAux, stepJson]
    constructor
    · intro _
      exact ⟨raw, List.mem_cons_self _ _⟩
    · intro _
      trivial
  | .good r :: rest, i, st => by
    have ih := runJsonAux_error_iff rest (i + 1)
      (if i % 100 = 0 then flush (stepRecord st r) else stepRecord st r)
    simp only [runJsonAux, stepJson]
    rw [ih]
    simp

/-! ## Claim theorems -/

/-- C1, counterexample: the two-character query `"ab"` has length less
than 3, yet `TelescopeQueryCommand._run` builds and launches a search
command for it (the plan is `some _`): the code has no 3-character floor,
contradicting the claim that every query shorter than 3 characters
launches no process. -/
theorem c1_counterexample :
    (['a', 'b'] : List Char).length < 3 ∧
    (planSearch ['a', 'b'] [] ["/proj"] "/h").isSome = true :=
  ⟨by decide, by decide⟩

/-- C1, amended: only the *empty* query is special-cased.  For every
query, `planSearch` yields no process invocation exactly when the query
is empty; an empty query also makes `_run` skip the launch, set the
result panel to the empty result list, and the parser then produces the
empty result set. -/
theorem c1_amended :
    (∀ (q : List Char) (ex : List (List Char)) (f : List String)
        (home : String), planSearch q ex f home = none ↔ q = []) ∧
    (queryFire 0 (queryRun 0 [] schedInit)).launched = [] ∧
    (queryFire 0 (queryRun 0 [] schedInit)).cleared = [0] ∧
    telescope_set_result_json [] = .ok ([], []) := by
  refine ⟨?_, rfl, rfl, rfl⟩
  intro q ex f home
  constructor
  · intro hnone
    by_contra hq
    have : planSearch q ex f home ≠ none := by
      simp only [planSearch, if_neg hq]
      split <;> simp
    exact this hnone
  · intro h
    subst h
    rfl

/-- C2, counterexample: two successive edits on the same panel, with no
callback firing in between, enqueue **two** timers — and both with delay
0, never `MIN_UPDATE_PERIOD` — because line 96 tests the window's
membership in a dictionary keyed by views.  This contradicts the claim
that an edit arriving while a ticket is pending only overwrites the
stored query and does not enqueue a second timer. -/
theorem c2_counterexample :
    (queryRun 0 ['a', 'b'] (queryRun 0 ['a'] schedInit)).scheduled
      = [(0, 0), (0, 0)] := rfl

/-- C2, amended: per panel at most one query is *stored* at a time and a
new edit overwrites it, but every edit also enqueues a fresh timer
callback, always with delay 0 (the window key is never present in the
view-keyed dictionary, so the `MIN_UPDATE_PERIOD` branch is dead code);
once a callback consumes the stored query the dictionary entry is gone,
so each stored query fires at most one search. -/
theorem c2_amended (v : Nat) (q : List Char) (st : SchedState)
    (hw : ∀ w, st.search_queries (Key.window w) = none) :
    (queryRun v q st).search_queries (Key.view v) = some q ∧
    (queryRun v q st).scheduled = st.scheduled ++ [(v, 0)] ∧
    (queryFire v (queryRun v q st)).search_queries (Key.view v) = none := by
  refine ⟨queryRun_queries v q st, ?_, ?_⟩
  · simp [queryRun, hw (window_of v)]
  · have hl := queryRun_queries v q st
    unfold queryFire
    rw [hl]
    by_cases hq0 : q = [] <;> simp [hq0, dictSet]

/-- Witness for C2 (amended) at a concrete edit on panel view 0. -/
theorem c2_amended_witness :
    (queryRun 0 ['x'] schedInit).search_queries (Key.view 0) = some ['x'] ∧
    (queryRun 0 ['x'] schedInit).scheduled = schedInit.scheduled ++ [(0, 0)] ∧
    (queryFire 0 (queryRun 0 ['x'] schedInit)).search_queries (Key.view 0)
      = none :=
  c2_amended 0 ['x'] schedInit (fun _ => rfl)

/-- C9: a scheduled callback that fires after the stored query was
already consumed (the pop of line 105 yields `None`) is a no-op: the
whole state is unchanged, so in particular no process is launched and the
result panel is untouched. -/
theorem c9_stale_noop (v : Nat) (st : SchedState)
    (h : st.search_queries (Key.view v) = none) :
    queryFire v st = st := by
  unfold queryFire
  rw [h]

/-- Witness for C9: firing on the initial state is a no-op. -/
theorem c9_stale_noop_witness : queryFire 0 schedInit = schedInit :=
  c9_stale_noop 0 schedInit rfl

set_option maxRecDepth 8192 in
/-- C8, counterexample: a matched line of 250 non-whitespace characters
is stored for display in full — 250 characters, more than the 200 the
claim allows — because line 220 truncates at 500 characters, not 200. -/
theorem c8_counterexample :
    ¬((displayedClip (replaceNl (List.replicate 250 'a'))
        (firstNonWs (replaceNl (List.replicate 250 'a')))).length ≤ 200) := by
  decide

/-- C8, amended: for every parsed match line, the content stored for
display is truncated to at most **500** characters. -/
theorem c8_amended (content : List Char) (to_trim : Nat) :
    (displayedClip content to_trim).length ≤ 500 := by
  simp only [displayedClip, List.length_take]
  exact Nat.min_le_left _ _

/-- C5, counterexample: with one malformed record between two well-formed
match records, the whole parse aborts with an exception (the `json.loads`
of line 195 is not guarded), instead of skipping the bad record and
producing the two well-formed results as the claim states. -/
theorem c5_counterexample : telescope_set_result_json exC5 = .error () :=
  rfl

/-- C5, amended: empty (whitespace-only) lines are skipped silently, but
a structured record that fails to parse aborts the entire parse: the
parse raises exactly when some non-blank line is malformed, and no
results are produced in that case. -/
theorem c5_amended :
    (∀ (i : Nat) (st : SetResultState) (raw : String),
        stepJson i st (.blank raw) = .ok st) ∧
    (∀ lines : List JsonLine,
        telescope_set_result_json lines = .error () ↔
          ∃ raw, JsonLine.bad raw ∈ lines) := by
  constructor
  · intro i st raw
    rfl
  · intro lines
    exact runJsonAux_error_iff lines 0 setResultInit

/-- C6, counterexample: the record with line text `"  foo(bar)\n"` and
submatch `(6, 9)` parses to a `SearchResult` whose stored match span is
`(6, 9)`, but that span is **not** expressed relative to the trimmed line
content: slicing the trimmed content (`"foo(bar) "`) at `(6, 9)` yields
`"r) "`, not the matched text `"bar"` that `(6, 9)` addresses in the
original untrimmed line. -/
theorem c6_counterexample :
    telescope_set_result_json exC6 =
      .ok ([⟨"a.py", 12, (6, 9), (15, 18)⟩], "a.py:\n 12: foo(bar) ".toList) ∧
    ¬((((replaceNl txt6).drop (firstNonWs (replaceNl txt6))).drop 6).take 3
        = (txt6.drop 6).take 3) :=
  ⟨rfl, by decide⟩

/-- C6, amended: the record parses to a `SearchResult` with line number
12 and match span `(6, 9)` expressed relative to the **original
untrimmed** line (where it addresses the matched text `"bar"`); its
display span `(27, 30)` is non-negative, addresses `"bar"` in the display
buffer, and is strictly greater than the previous same-file record's
display span `(11, 12)`. -/
theorem c6_amended :
    telescope_set_result_json exC6b =
      .ok ([⟨"a.py", 11, (0, 1), (11, 12)⟩, ⟨"a.py", 12, (6, 9), (27, 30)⟩],
        "a.py:\n 11: x = 1 \n 12: foo(bar) ".toList) ∧
    (txt6.drop 6).take 3 = "bar".toList ∧
    (("a.py:\n 11: x = 1 \n 12: foo(bar) ".toList).drop 27).take 3
      = "bar".toList ∧
    (0 : Int) ≤ 27 ∧ (11 : Int) < 27 ∧ (12 : Int) < 30 :=
  ⟨rfl, by decide, by decide, by decide, by decide, by decide⟩

/-- C7, counterexample: the query `"~"` has an empty literal search text
and **zero** glob constraints, yet `_run` switches to files-only mode
(the `--files-with-matches` flag is appended): files-only mode does not
require a glob constraint, contradicting the claim's "exactly when". -/
theorem c7_counterexample :
    planSearch ['~'] [] ["/proj"] "/home/u" =
      some ⟨[("--files-with-matches", [])], [], ["/home/u"], true⟩ :=
  rfl

/-- C3: whenever a scheduled callback actually runs a search after a
burst of edits, the query it executes is the latest requested query of
the panel — the last edit of the burst — not the query current when any
timer was scheduled: the dictionary holds the last edit's query, and
firing launches exactly that query. -/
theorem c3_latest (v : Nat) (qs : List (List Char)) (st : SchedState)
    (h : qs ≠ []) (hq : qs.getLast h ≠ []) :
    (applyEdits v qs st).search_queries (Key.view v) = some (qs.getLast h) ∧
    (queryFire v (applyEdits v qs st)).launched
      = (applyEdits v qs st).launched ++ [(v, qs.getLast h)] := by
  have hl := applyEdits_queries v qs st h
  refine ⟨hl, ?_⟩
  unfold queryFire
  rw [hl]
  simp [hq]

/-- Witness for C3: a burst of two edits on panel view 0 fires a search
for the last query. -/
theorem c3_latest_witness :
    (applyEdits 0 [['a'], ['a', 'b']] schedInit).search_queries (Key.view 0)
      = some ['a', 'b'] ∧
    (queryFire 0 (applyEdits 0 [['a'], ['a', 'b']] schedInit)).launched
      = (applyEdits 0 [['a'], ['a', 'b']] schedInit).launched
        ++ [(0, ['a', 'b'])] :=
  c3_latest 0 [['a'], ['a', 'b']] schedInit (by decide) (by decide)

/-- C4: for a non-empty result set of size `n`, `_next_result` sets the
highlight index to `(index + delta) mod n`, the new index is in
`[0, n)` (wrap-around in both directions), moving by `d₁` then by `d₂`
equals moving by `d₁ + d₂`, and on an empty result set the index update
from the reachable index `0` yields `0` again — a harmless no-op, never
an error. -/
theorem c4_moveBy (i d₁ d₂ : Int) (n : Nat) (hn : 0 < n) :
    next_result_index i d₁ n = (i + d₁) % (n : Int) ∧
    0 ≤ next_result_index i d₁ n ∧
    next_result_index i d₁ n < (n : Int) ∧
    next_result_index (next_result_index i d₁ n) d₂ n
      = next_result_index i (d₁ + d₂) n ∧
    next_result_index 0 d₁ 0 = 0 := by
  have hne : n ≠ 0 := Nat.pos_iff_ne_zero.mp hn
  have hmod : (if n = 0 then (1 : Int) else (n : Int)) = (n : Int) :=
    if_neg hne
  have hnz : (n : Int) ≠ 0 := by exact_mod_cast hne
  refine ⟨?_, ?_, ?_, ?_, ?_⟩
  · rw [next_result_index, hmod]
  · rw [next_result_index, hmod]
    exact Int.emod_nonneg _ hnz
  · rw [next_result_index, hmod]
    exact Int.emod_lt_of_pos _ (by exact_mod_cast hn)
  · simp only [next_result_index, hmod]
    rw [emod_add_left_emod, add_assoc]
  · simp [next_result_index, Int.emod_one]

/-- Witness for C4 at index 5, deltas 2 and 4, result count 3. -/
theorem c4_moveBy_witness :
    next_result_index 5 2 3 = (5 + 2) % ((3 : Nat) : Int) ∧
    0 ≤ next_result_index 5 2 3 ∧
    next_result_index 5 2 3 < ((3 : Nat) : Int) ∧
    next_result_index (next_result_index 5 2 3) 4 3
      = next_result_index 5 (2 + 4) 3 ∧
    next_result_index 0 2 0 = 0 :=
  c4_moveBy 5 2 4 3 (by decide)

/-- The literal-search accumulator of the term-classification loop is
exactly the subsequence of terms that are neither glob tokens nor `~`
nor whitespace-only. -/
theorem fold_search (home : String) (terms : List (List Char)) :
    ∀ (args : List (String × List Char)) (sl : List (List Char))
      (fl : List String),
    (terms.foldl (processTerm home) (args, sl, fl)).2.1
      = sl ++ terms.filter searchTermKept := by
  induction terms with
  | nil =>
    intro args sl fl
    simp
  | cons s rest ih =>
    intro args sl fl
    simp only [List.foldl_cons, List.filter_cons]
    by_cases hg : isGlobTerm s = true
    · have hk : searchTermKept s = false := by simp [searchTermKept, hg]
      rw [hk, show processTerm home (args, sl, fl) s
          = (args ++ [("--glob", collapseStars (replaceDashStar s))], sl, fl)
          from by simp [processTerm, hg]]
      simpa using ih _ sl fl
    · by_cases ht : s = ['~']
      · have hk : searchTermKept s = false := by simp [searchTermKept, ht]
        rw [hk, show processTerm home (args, sl, fl) s = (args, sl, [home])
            from by subst ht; rfl]
        simpa using ih _ sl _
      · by_cases hs : strippedTruthy s = true
        · have hk : searchTermKept s = true := by
            simp [searchTermKept, hg, ht, hs]
          rw [hk, show processTerm home (args, sl, fl) s = (args, sl ++ [s], fl)
              from by simp [processTerm, hg, ht, hs]]
          rw [ih _ _ _]
          simp
        · have hk : searchTermKept s = false := by
            simp [searchTermKept, hg, ht, hs]
          rw [hk, show processTerm home (args, sl, fl) s = (args, sl, fl)
              from by simp [processTerm, hg, ht, hs]]
          simpa using ih _ _ _

/-- A kept search term is non-empty. -/
theorem kept_ne_nil (s : List Char) (h : searchTermKept s = true) :
    s ≠ [] := by
  intro he
  subst he
  simp [searchTermKept, strippedTruthy] at h

/-- The space-join of non-empty pieces is empty only for the empty
list of pieces. -/
theorem joinSpaces_eq_nil :
    ∀ (l : List (List Char)), (∀ x ∈ l, x ≠ []) →
      (joinSpaces l = [] ↔ l = [])
  | [], _ => by simp [joinSpaces]
  | [a], h => by
    have ha := h a (by simp)
    simp [joinSpaces, ha]
  | a :: b :: t, h => by
    simp [joinSpaces]

/-- The plan built for a non-empty query, as an explicit case split on
the emptiness of the literal search text. -/
theorem planSearch_eq (q : List Char) (ex : List (List Char))
    (f : List String) (home : String) (hq : q ≠ []) :
    planSearch q ex f home =
      (if joinSpaces ((splitSpaces q).foldl (processTerm home)
          (excludeArgs ex, [], f)).2.1 = [] then
        some ⟨((splitSpaces q).foldl (processTerm home)
            (excludeArgs ex, [], f)).1 ++ [("--files-with-matches", [])],
          joinSpaces ((splitSpaces q).foldl (processTerm home)
            (excludeArgs ex, [], f)).2.1,
          ((splitSpaces q).foldl (processTerm home)
            (excludeArgs ex, [], f)).2.2, true⟩
      else
        some ⟨((splitSpaces q).foldl (processTerm home)
            (excludeArgs ex, [], f)).1,
          joinSpaces ((splitSpaces q).foldl (processTerm home)
            (excludeArgs ex, [], f)).2.1,
          ((splitSpaces q).foldl (processTerm home)
            (excludeArgs ex, [], f)).2.2, false⟩) := by
  unfold planSearch
  rw [if_neg hq]

/-- C7, amended: for every non-empty query the plan exists, and it is in
files-only mode **exactly when** the literal search text is empty, i.e.
exactly when every space-separated term of the query is a glob token, the
`~` token, or whitespace-only — independently of whether any glob
constraint exists. -/
theorem c7_amended (q : List Char) (ex : List (List Char)) (f : List String)
    (home : String) (hq : q ≠ []) :
    ∃ p, planSearch q ex f home = some p ∧
      (p.only_files = true ↔
        (splitSpaces q).filter searchTermKept = []) := by
  have hsl : ((splitSpaces q).foldl (processTerm home)
      (excludeArgs ex, [], f)).2.1 = (splitSpaces q).filter searchTermKept :=
    by simpa using fold_search home (splitSpaces q) (excludeArgs ex) [] f
  have hne : ∀ x ∈ (splitSpaces q).filter searchTermKept, x ≠ [] := by
    intro x hx
    exact kept_ne_nil x (List.of_mem_filter hx)
  have hjoin := joinSpaces_eq_nil ((splitSpaces q).filter searchTermKept) hne
  rw [planSearch_eq q ex f home hq]
  by_cases hj : joinSpaces ((splitSpaces q).foldl (processTerm home)
      (excludeArgs ex, [], f)).2.1 = []
  · rw [if_pos hj]
    refine ⟨_, rfl, ?_⟩
    rw [hsl] at hj
    simp [hjoin.mp hj]
  · rw [if_neg hj]
    refine ⟨_, rfl, ?_⟩
    rw [hsl] at hj
    constructor
    · intro hfalse
      exact absurd hfalse (by simp)
    · intro hfil
      exact absurd (hjoin.mpr hfil) hj

/-- Witness for C7 (amended) at the query `"*.py abc"`. -/
theorem c7_amended_witness :
    ∃ p, planSearch "*.py abc".toList [] ["/p"] "/h" = some p ∧
      (p.only_files = true ↔
        (splitSpaces "*.py abc".toList).filter searchTermKept = []) :=
  c7_amended "*.py abc".toList [] ["/p"] "/h" (by decide)

/-- Every result appended by one record keeps the panel-region width
equal to the in-line span width. -/
theorem stepRecord_width (st : SetResultState) (rcd : RgRecord)
    (h : ∀ r ∈ st.results, r.region_out.2 - r.region_out.1
      = r.line_position.2 - r.line_position.1) :
    ∀ r ∈ (stepRecord st rcd).results, r.region_out.2 - r.region_out.1
      = r.line_position.2 - r.line_position.1 := by
  cases rcd with
  | beginRec path => exact h
  | otherRec => exact h
  | matchRec path ln text subs =>
    intro r hr
    simp only [stepRecord, List.mem_append, List.mem_map] at hr
    rcases hr with hr | ⟨m, _, rfl⟩
    · exact h r hr
    · simp

/-- The width invariant is preserved by the whole structured parse
loop. -/
theorem runJsonAux_width :
    ∀ (lines : List JsonLine) (i : Nat) (st : SetResultState)
      (out : List SearchResult × List Char),
    (∀ r ∈ st.results, r.region_out.2 - r.region_out.1
      = r.line_position.2 - r.line_position.1) →
    runJsonAux i st lines = .ok out →
    ∀ r ∈ out.1, r.region_out.2 - r.region_out.1
      = r.line_position.2 - r.line_position.1 := by
  intro lines
  induction lines with
  | nil =>
    intro i st out h hrun
    have hout : out = (st.results, st.committed ++ st.to_show) := by
      simpa [runJsonAux] using hrun.symm
    subst hout
    exact h
  | cons l rest ih =>
    intro i st out h hrun
    cases l with
    | blank raw => exact ih (i + 1) st out h hrun
    | bad raw => exact absurd hrun (by simp [runJsonAux, stepJson])
    | good rcd =>
      have h1 := stepRecord_width st rcd h
      have h2 : ∀ r ∈ (if i % 100 = 0 then flush (stepRecord st rcd)
          else stepRecord st rcd).results, r.region_out.2 - r.region_out.1
          = r.line_position.2 - r.line_position.1 := by
        split
        · simpa [flush] using h1
        · exact h1
      exact ih (i + 1) _ out h2 hrun

/-- C10: every `SearchResult` produced from a structured match record has
an IO-panel display region exactly as wide as its in-line match span:
both intervals are translates of the same submatch interval. -/
theorem c10_width (lines : List JsonLine)
    (out : List SearchResult × List Char) (r : SearchResult)
    (hrun : telescope_set_result_json lines = .ok out) (hr : r ∈ out.1) :
    r.region_out.2 - r.region_out.1
      = r.line_position.2 - r.line_position.1 :=
  runJsonAux_width lines 0 setResultInit out (by simp [setResultInit])
    hrun r hr

/-- Witness for C10 at the stream `exC10`. -/
theorem c10_width_witness :
    (SearchResult.mk "b.py" 3 (1, 2) (6, 7)).region_out.2
        - (SearchResult.mk "b.py" 3 (1, 2) (6, 7)).region_out.1
      = (SearchResult.mk "b.py" 3 (1, 2) (6, 7)).line_position.2
        - (SearchResult.mk "b.py" 3 (1, 2) (6, 7)).line_position.1 :=
  c10_width exC10
    ([⟨"b.py", 3, (0, 1), (5, 6)⟩, ⟨"b.py", 3, (1, 2), (6, 7)⟩],
      "\n 3: ab ".toList)
    ⟨"b.py", 3, (1, 2), (6, 7)⟩ rfl (by decide)

end Telescope
